import Mathlib

/-!
Shallow embedding of the drone path-generation and mission-accounting
engine of `src/app/helpers/utils.ts`.

Modelling conventions:
* JavaScript numbers are modelled as real numbers (`ℝ`); `Math.sin`,
  `Math.cos`, `Math.sqrt`, `Math.atan2`, `Math.floor` become `Real.sin`,
  `Real.cos`, `Real.sqrt`, `atan2` (defined below), `Int.floor`.
* JavaScript's truncating float remainder `%` is `jsMod`.
* The wall clock (`new Date()` / `setSeconds(+10)` / `toISOString`) is
  modelled as an integer second counter `startTime` threaded through the
  generator; each appended waypoint advances it by 10 and records it in
  the `timestamp` field.
* The mutable closure state of `generatePath` is an explicit `GenState`
  record threaded through folds over the vertex segments; the `break`
  statements become guards on the `batteryDepleted` flag.
* `Infinity` / `-Infinity` seeds of the summary extrema loop are
  modelled in `EReal` (`⊤` / `⊥`), converted back with `EReal.toReal`
  once the (nonempty-list-guarded) scan has produced a finite value.
-/

namespace MapTracing

open scoped Classical

noncomputable section

/-- `Coordinate` of `types.ts`: a geographic point in decimal degrees. -/
@[ext]
structure Coordinate where
  lat : ℝ
  lng : ℝ

/-- The `type` tag of a waypoint: user-supplied vertex or synthesized point. -/
inductive WaypointType where
  | initial
  | interpolated
deriving DecidableEq

/-- `Waypoint` of `types.ts`; the ISO timestamp string is modelled by the
integer second counter it is rendered from. -/
structure Waypoint where
  lat : ℝ
  lng : ℝ
  id : ℕ
  type : WaypointType
  timestamp : ℤ
  temperature : ℝ
  windSpeed : ℝ
  windDirection : ℝ
  elapsedTimeHours : ℝ

/-- `MissionSummary` of `types.ts`. -/
structure MissionSummary where
  totalIdealDistance : ℝ
  totalRealisticDistance : ℝ
  totalFlightTimeHours : ℝ
  maxTemperature : ℝ
  minTemperature : ℝ
  maxWindSpeed : ℝ
  minWindSpeed : ℝ

/-- `DRONE_SPEED_KMPH = 60`. -/
def DRONE_SPEED_KMPH : ℝ := 60

/-- `KM_PER_DEG_LAT = 111.1`. -/
def KM_PER_DEG_LAT : ℝ := 111.1

/-- `toRad`, defined locally in several source functions:
degrees to radians. -/
def toRad (x : ℝ) : ℝ := x * Real.pi / 180

/-- JavaScript's `Math.atan2(y, x)` on real inputs (the signed-zero and
NaN behaviour of floats has no counterpart in `ℝ`; for `x = 0` we return
the JS values for positive zero). -/
def atan2 (y x : ℝ) : ℝ :=
  if 0 < x then Real.arctan (y / x)
  else if x = 0 then
    if 0 < y then Real.pi / 2
    else if y < 0 then -(Real.pi / 2)
    else 0
  else
    if 0 ≤ y then Real.arctan (y / x) + Real.pi
    else Real.arctan (y / x) - Real.pi

/-- `haversineDistance` of `utils.ts`: great-circle distance in km on a
sphere of radius 6371 km. -/
def haversineDistance (p1 p2 : Coordinate) : ℝ :=
  let R : ℝ := 6371
  let dLat := toRad (p2.lat - p1.lat)
  let dLng := toRad (p2.lng - p1.lng)
  let lat1 := toRad p1.lat
  let lat2 := toRad p2.lat
  let a :=
    Real.sin (dLat / 2) * Real.sin (dLat / 2) +
      Real.sin (dLng / 2) * Real.sin (dLng / 2) * Real.cos lat1 * Real.cos lat2
  let c := 2 * atan2 (Real.sqrt a) (Real.sqrt (1 - a))
  R * c

/-- `interpolatePoint` of `utils.ts`: straight lat/lng interpolation. -/
def interpolatePoint (p1 p2 : Coordinate) (t : ℝ) : Coordinate :=
  { lat := p1.lat + (p2.lat - p1.lat) * t,
    lng := p1.lng + (p2.lng - p1.lng) * t }

/-- Truncation toward zero, as JavaScript's float-remainder uses. -/
def jsTrunc (x : ℝ) : ℝ := if 0 ≤ x then (⌊x⌋ : ℝ) else (⌈x⌉ : ℝ)

/-- JavaScript's `%` on numbers: `a - b * trunc (a / b)` (for `b ≠ 0`;
the `b = 0` NaN case is never exercised by the source, which only takes
remainders by 5, 3, 2 and 360). -/
def jsMod (a b : ℝ) : ℝ := a - b * jsTrunc (a / b)

/-- The `Pick<Waypoint, "temperature" | "windSpeed" | "windDirection">`
record returned by `getSimulatedData`. -/
structure SimData where
  temperature : ℝ
  windSpeed : ℝ
  windDirection : ℝ

/-- `getSimulatedData` of `utils.ts`: deterministic position-derived
pseudo-environment. -/
def getSimulatedData (lat lng : ℝ) : SimData :=
  { temperature := 20 + jsMod lat 5 - jsMod lng 3,
    windSpeed := 10 + jsMod lat 3 + jsMod lng 2,
    windDirection := (⌊jsMod (lng + lat) 360⌋ : ℝ) }

/-- The lat/lng projection of a waypoint (in the source a `Waypoint`
structurally contains its `Coordinate` fields via spread). -/
def Waypoint.toCoordinate (w : Waypoint) : Coordinate := ⟨w.lat, w.lng⟩

/-- Accumulator of the main scan of `calculateMissionSummary`:
running realistic distance and running extrema (`EReal` so that the
`-Infinity` / `Infinity` seeds are representable). -/
structure SummaryAcc where
  dist : ℝ
  maxT : EReal
  minT : EReal
  maxW : EReal
  minW : EReal

/-- One iteration of the `for (let i = 1; i < waypoints.length; i++)`
loop of `calculateMissionSummary`, on the pair
`(waypoints[i-1], waypoints[i])`. -/
def summaryStep (acc : SummaryAcc) (pq : Waypoint × Waypoint) : SummaryAcc :=
  { dist := acc.dist + haversineDistance pq.1.toCoordinate pq.2.toCoordinate,
    maxT := max acc.maxT (pq.2.temperature : EReal),
    minT := min acc.minT (pq.2.temperature : EReal),
    maxW := max acc.maxW (pq.2.windSpeed : EReal),
    minW := min acc.minW (pq.2.windSpeed : EReal) }

/-- `calculateMissionSummary` of `utils.ts`.  The `waypoints.length < 2`
guard returns the all-zero record; otherwise the consecutive-pair scan,
the fold-in of the first waypoint's readings, the ideal-coordinate
distance scan and the last waypoint's elapsed time are computed exactly
as in the source. -/
def calculateMissionSummary : List Waypoint → List Coordinate → MissionSummary
  | [], _ =>
    { totalIdealDistance := 0, totalRealisticDistance := 0,
      totalFlightTimeHours := 0, maxTemperature := 0, minTemperature := 0,
      maxWindSpeed := 0, minWindSpeed := 0 }
  | [_], _ =>
    { totalIdealDistance := 0, totalRealisticDistance := 0,
      totalFlightTimeHours := 0, maxTemperature := 0, minTemperature := 0,
      maxWindSpeed := 0, minWindSpeed := 0 }
  | w0 :: w1 :: rest, idealCoords =>
    let waypoints := w0 :: w1 :: rest
    let acc := (waypoints.zip waypoints.tail).foldl summaryStep ⟨0, ⊥, ⊤, ⊥, ⊤⟩
    let maxTemperature := max acc.maxT (w0.temperature : EReal)
    let minTemperature := min acc.minT (w0.temperature : EReal)
    let maxWindSpeed := max acc.maxW (w0.windSpeed : EReal)
    let minWindSpeed := min acc.minW (w0.windSpeed : EReal)
    let totalIdealDistance :=
      (idealCoords.zip idealCoords.tail).foldl
        (fun d pq => d + haversineDistance pq.1 pq.2) 0
    let totalFlightTimeHours :=
      (waypoints.getLast (List.cons_ne_nil w0 (w1 :: rest))).elapsedTimeHours
    { totalIdealDistance := totalIdealDistance,
      totalRealisticDistance := acc.dist,
      totalFlightTimeHours := totalFlightTimeHours,
      maxTemperature := maxTemperature.toReal,
      minTemperature := minTemperature.toReal,
      maxWindSpeed := maxWindSpeed.toReal,
      minWindSpeed := minWindSpeed.toReal }

/-! ### The path generator -/

/-- The parameters of `generatePath` other than the vertex list, with
the flight-time ceiling already converted to hours
(`maxFlightTimeMinutes !== null ? maxFlightTimeMinutes / 60 : null`). -/
structure WindConfig where
  useCustomWind : Bool
  playgroundWindSpeed : ℝ
  playgroundWindDirection : ℝ
  maxFlightTimeHours : Option ℝ

/-- The `maxFlightTimeHours !== null && totalElapsedTimeHours >
maxFlightTimeHours` test of the source. -/
def exceedsLimit (maxH : Option ℝ) (t : ℝ) : Prop :=
  match maxH with
  | none => False
  | some mh => mh < t

/-- The mutable state captured by the closures inside `generatePath`. -/
structure GenState where
  waypoints : List Waypoint
  idealCoords : List Coordinate
  idCounter : ℕ
  time : ℤ
  totalElapsedTimeHours : ℝ
  batteryDepleted : Bool
  finalWaypointIndex : ℕ
  lastPointInSegment : Coordinate

/-- The `addWaypoint` closure of `generatePath`: advance the clock by 10
seconds, push a waypoint carrying the current id counter and timestamp,
then advance the id counter. -/
def addWaypoint (s : GenState) (p : Coordinate) (ty : WaypointType)
    (data : SimData) (elapsedTimeHours : ℝ) : GenState :=
  { s with
    time := s.time + 10,
    idCounter := s.idCounter + 1,
    waypoints := s.waypoints ++
      [{ lat := p.lat, lng := p.lng, id := s.idCounter, type := ty,
         timestamp := s.time + 10, temperature := data.temperature,
         windSpeed := data.windSpeed, windDirection := data.windDirection,
         elapsedTimeHours := elapsedTimeHours }] }

/-- The body of the inner `for (let j = 1; j <= extraPoints; j++)` loop
of `generatePath`: push the ideal point, resolve environmental data,
accumulate the step time, then either deplete the battery (recording the
index of the last waypoint already appended and adding nothing further)
or append the drift-adjusted interpolated waypoint. -/
def innerBody (cfg : WindConfig) (p1 p2 : Coordinate) (extraPoints : ℕ)
    (j : ℕ) (s : GenState) : GenState :=
  let t : ℝ := (j : ℝ) / ((extraPoints : ℝ) + 1)
  let idealPoint := interpolatePoint p1 p2 t
  let s1 := { s with idealCoords := s.idealCoords ++ [idealPoint] }
  let data :=
    if cfg.useCustomWind then
      { temperature := (getSimulatedData idealPoint.lat idealPoint.lng).temperature,
        windSpeed := cfg.playgroundWindSpeed,
        windDirection := cfg.playgroundWindDirection : SimData }
    else getSimulatedData idealPoint.lat idealPoint.lng
  let step_dist_km := haversineDistance s1.lastPointInSegment idealPoint
  let windPenaltyFactor : ℝ :=
    if cfg.useCustomWind then 1 + data.windSpeed / 100 else 1
  let step_time_hours := step_dist_km / DRONE_SPEED_KMPH * windPenaltyFactor
  let newElapsed := s1.totalElapsedTimeHours + step_time_hours
  if exceedsLimit cfg.maxFlightTimeHours newElapsed then
    { s1 with
      totalElapsedTimeHours := newElapsed
      batteryDepleted := true
      finalWaypointIndex := s1.waypoints.length - 1 }
  else
    let windDirectionRad := toRad data.windDirection
    let drift_km := data.windSpeed * step_time_hours
    let drift_y_km := drift_km * Real.cos windDirectionRad
    let drift_x_km := drift_km * Real.sin windDirectionRad
    let km_per_deg_lng := KM_PER_DEG_LAT * Real.cos (toRad idealPoint.lat)
    let drift_lat := drift_y_km / KM_PER_DEG_LAT
    let drift_lng := drift_x_km / km_per_deg_lng
    let realisticPoint : Coordinate :=
      ⟨idealPoint.lat + drift_lat, idealPoint.lng + drift_lng⟩
    let s2 := addWaypoint { s1 with totalElapsedTimeHours := newElapsed }
      realisticPoint WaypointType.interpolated data newElapsed
    { s2 with lastPointInSegment := realisticPoint }

/-- The inner loop of `generatePath` over `j = 1 .. extraPoints`; the
`break` on depletion becomes a guard that leaves the state unchanged. -/
def runInner (cfg : WindConfig) (p1 p2 : Coordinate) (extraPoints : ℕ)
    (s : GenState) : GenState :=
  (List.range' 1 extraPoints).foldl
    (fun s j => if s.batteryDepleted then s else innerBody cfg p1 p2 extraPoints j s) s

/-- The body of the outer `for (let i = 0; ...)` loop of `generatePath`,
for the vertex pair `(p1_ideal, p2_ideal) = seg`: guard on depletion,
run the interpolation loop, then close the segment with the final leg to
`p2` (with its own cutoff check) and append `p2` as an `initial`
waypoint. -/
def outerBody (cfg : WindConfig) (s : GenState) (seg : Coordinate × Coordinate) :
    GenState :=
  if s.batteryDepleted then s
  else
    let p1 := seg.1
    let p2 := seg.2
    let idealSegmentDist := haversineDistance p1 p2
    let extraPoints : ℕ := (⌊idealSegmentDist / 0.5⌋).toNat
    let s1 := runInner cfg p1 p2 extraPoints s
    if s1.batteryDepleted then s1
    else
      let endData := getSimulatedData p2.lat p2.lng
      let final_segment_dist := haversineDistance s1.lastPointInSegment p2
      let finalWindSpeed :=
        if cfg.useCustomWind then cfg.playgroundWindSpeed else endData.windSpeed
      let finalWindPenalty : ℝ :=
        if cfg.useCustomWind then 1 + finalWindSpeed / 100 else 1
      let final_segment_time :=
        final_segment_dist / DRONE_SPEED_KMPH * finalWindPenalty
      let newElapsed := s1.totalElapsedTimeHours + final_segment_time
      if exceedsLimit cfg.maxFlightTimeHours newElapsed then
        { s1 with
          totalElapsedTimeHours := newElapsed
          batteryDepleted := true
          finalWaypointIndex := s1.waypoints.length - 1 }
      else
        let s2 := addWaypoint { s1 with totalElapsedTimeHours := newElapsed }
          p2 WaypointType.initial endData newElapsed
        { s2 with
          idealCoords := s2.idealCoords ++ [p2]
          lastPointInSegment := p2 }

/-- The record returned by `generatePath`. -/
structure GenResult where
  waypoints : List Waypoint
  idealCoords : List Coordinate
  batteryDepleted : Bool
  finalWaypointIndex : ℕ

/-- `generatePath` on a nonempty vertex list `p0 :: rest`, starting the
cosmetic clock at `startTime`: emit the first vertex as an `initial`
waypoint at elapsed time 0, push it on the ideal list, fold the outer
loop over consecutive vertex pairs, and finally set
`finalWaypointIndex = waypoints.length - 1` when no depletion occurred. -/
def generatePathAux (startTime : ℤ) (p0 : Coordinate) (rest : List Coordinate)
    (useCustomWind : Bool) (playgroundWindSpeed playgroundWindDirection : ℝ)
    (maxFlightTimeMinutes : Option ℝ) : GenResult :=
  let cfg : WindConfig :=
    ⟨useCustomWind, playgroundWindSpeed, playgroundWindDirection,
      maxFlightTimeMinutes.map (· / 60)⟩
  let s0 : GenState :=
    { waypoints := [], idealCoords := [], idCounter := 0, time := startTime,
      totalElapsedTimeHours := 0, batteryDepleted := false,
      finalWaypointIndex := 0, lastPointInSegment := p0 }
  let initialData := getSimulatedData p0.lat p0.lng
  let s1 := addWaypoint s0 p0 WaypointType.initial initialData 0
  let s2 := { s1 with idealCoords := s1.idealCoords ++ [p0] }
  let points := p0 :: rest
  let sF := (points.zip points.tail).foldl (outerBody cfg) s2
  { waypoints := sF.waypoints, idealCoords := sF.idealCoords,
    batteryDepleted := sF.batteryDepleted,
    finalWaypointIndex :=
      if sF.batteryDepleted then sF.finalWaypointIndex
      else sF.waypoints.length - 1 }

/-- `generatePath` of `utils.ts`.  Indexing `initialPoints[0]` on an
empty list is a failure in the source, modelled by `Option`. -/
def generatePath (startTime : ℤ) (initialPoints : List Coordinate)
    (useCustomWind : Bool) (playgroundWindSpeed playgroundWindDirection : ℝ)
    (maxFlightTimeMinutes : Option ℝ) : Option GenResult :=
  match initialPoints with
  | [] => none
  | p0 :: rest =>
    some (generatePathAux startTime p0 rest useCustomWind
      playgroundWindSpeed playgroundWindDirection maxFlightTimeMinutes)

/-! ### Abbreviations used to state normal forms of the loop bodies -/

/-- The wind speed in force at a point: the operator override under
custom wind, the position-derived sample otherwise. -/
def windAt (cfg : WindConfig) (pt : Coordinate) : ℝ :=
  if cfg.useCustomWind then cfg.playgroundWindSpeed
  else (getSimulatedData pt.lat pt.lng).windSpeed

/-- The wind direction in force at a point. -/
def dirAt (cfg : WindConfig) (pt : Coordinate) : ℝ :=
  if cfg.useCustomWind then cfg.playgroundWindDirection
  else (getSimulatedData pt.lat pt.lng).windDirection

/-- The step flight time from `p` to `q`: distance over cruise speed
times the wind penalty factor (applied only under custom wind). -/
def stepTime (cfg : WindConfig) (p q : Coordinate) : ℝ :=
  haversineDistance p q / DRONE_SPEED_KMPH *
    (if cfg.useCustomWind then 1 + windAt cfg q / 100 else 1)

/-- The drift-adjusted ("realistic") point produced from an ideal point
after `stime` hours of wind exposure. -/
def driftedPoint (cfg : WindConfig) (pt : Coordinate) (stime : ℝ) : Coordinate :=
  ⟨pt.lat + windAt cfg pt * stime * Real.cos (toRad (dirAt cfg pt)) / KM_PER_DEG_LAT,
   pt.lng + windAt cfg pt * stime * Real.sin (toRad (dirAt cfg pt)) /
     (KM_PER_DEG_LAT * Real.cos (toRad pt.lat))⟩

end

/-! ### Basic facts about the geometry primitives -/

theorem atan2_nonneg {y : ℝ} (x : ℝ) (hy : 0 ≤ y) : 0 ≤ atan2 y x := by
  unfold atan2
  have harc : ∀ z : ℝ, 0 ≤ z → 0 ≤ Real.arctan z := fun z hz => by
    have := Real.arctan_strictMono.monotone hz
    rwa [Real.arctan_zero] at this
  split
  · exact harc _ (div_nonneg hy (by linarith))
  · split
    · split
      · positivity
      · split
        · linarith
        · exact le_refl 0
    · have h1 := Real.neg_pi_div_two_lt_arctan (y / x)
      have h2 := Real.pi_pos
      linarith

/-- The haversine distance is nonnegative (the first `atan2` argument is
a square root). -/
theorem haversineDistance_nonneg (p1 p2 : Coordinate) :
    0 ≤ haversineDistance p1 p2 := by
  unfold haversineDistance
  have h := atan2_nonneg
    (Real.sqrt (1 - (Real.sin (toRad (p2.lat - p1.lat) / 2) *
        Real.sin (toRad (p2.lat - p1.lat) / 2) +
      Real.sin (toRad (p2.lng - p1.lng) / 2) *
          Real.sin (toRad (p2.lng - p1.lng) / 2) *
        Real.cos (toRad p1.lat) * Real.cos (toRad p2.lat))))
    (Real.sqrt_nonneg (Real.sin (toRad (p2.lat - p1.lat) / 2) *
        Real.sin (toRad (p2.lat - p1.lat) / 2) +
      Real.sin (toRad (p2.lng - p1.lng) / 2) *
          Real.sin (toRad (p2.lng - p1.lng) / 2) *
        Real.cos (toRad p1.lat) * Real.cos (toRad p2.lat)))
  positivity

/-- Step times are nonnegative whenever the custom wind speed (if custom
wind is enabled) is nonnegative. -/
theorem stepTime_nonneg (cfg : WindConfig) (p q : Coordinate)
    (hw : cfg.useCustomWind = true → 0 ≤ cfg.playgroundWindSpeed) :
    0 ≤ stepTime cfg p q := by
  unfold stepTime
  have hd := haversineDistance_nonneg p q
  have hs : (0 : ℝ) < DRONE_SPEED_KMPH := by norm_num [DRONE_SPEED_KMPH]
  apply mul_nonneg (div_nonneg hd hs.le)
  split
  · rename_i hcw
    have := hw hcw
    unfold windAt
    rw [if_pos hcw]
    linarith
  · norm_num

/-! ### Normal forms of the loop bodies -/

/-- Normal form of `innerBody`: push the ideal point, then either set
the depletion flag (recording the index of the last appended waypoint)
or append the drift-adjusted interpolated waypoint. -/
theorem innerBody_eq (cfg : WindConfig) (p1 p2 : Coordinate) (n j : ℕ)
    (s : GenState) :
    innerBody cfg p1 p2 n j s =
      (let pt := interpolatePoint p1 p2 ((j : ℝ) / ((n : ℝ) + 1))
       let e' := s.totalElapsedTimeHours + stepTime cfg s.lastPointInSegment pt
       if exceedsLimit cfg.maxFlightTimeHours e' then
         { s with
           idealCoords := s.idealCoords ++ [pt]
           totalElapsedTimeHours := e'
           batteryDepleted := true
           finalWaypointIndex := s.waypoints.length - 1 }
       else
         let rp := driftedPoint cfg pt (stepTime cfg s.lastPointInSegment pt)
         { s with
           waypoints := s.waypoints ++
             [{ lat := rp.lat, lng := rp.lng, id := s.idCounter,
                type := WaypointType.interpolated, timestamp := s.time + 10,
                temperature := (getSimulatedData pt.lat pt.lng).temperature,
                windSpeed := windAt cfg pt, windDirection := dirAt cfg pt,
                elapsedTimeHours := e' }]
           idealCoords := s.idealCoords ++ [pt]
           idCounter := s.idCounter + 1
           time := s.time + 10
           totalElapsedTimeHours := e'
           lastPointInSegment := rp }) := by
  show innerBody cfg p1 p2 n j s = _
  unfold innerBody addWaypoint
  cases hcw : cfg.useCustomWind <;>
    simp [stepTime, windAt, dirAt, driftedPoint, hcw]

/-- The segment-closing "final leg" of `outerBody` (source lines after
the inner loop): cutoff check for the leg to `p2`, then either depletion
or the `initial` waypoint for `p2`. -/
noncomputable def finalLeg (cfg : WindConfig) (p2 : Coordinate) (s : GenState) :
    GenState :=
  if exceedsLimit cfg.maxFlightTimeHours
      (s.totalElapsedTimeHours + stepTime cfg s.lastPointInSegment p2) then
    { s with
      totalElapsedTimeHours :=
        s.totalElapsedTimeHours + stepTime cfg s.lastPointInSegment p2
      batteryDepleted := true
      finalWaypointIndex := s.waypoints.length - 1 }
  else
    { s with
      waypoints := s.waypoints ++
        [{ lat := p2.lat, lng := p2.lng, id := s.idCounter,
           type := WaypointType.initial, timestamp := s.time + 10,
           temperature := (getSimulatedData p2.lat p2.lng).temperature,
           windSpeed := (getSimulatedData p2.lat p2.lng).windSpeed,
           windDirection := (getSimulatedData p2.lat p2.lng).windDirection,
           elapsedTimeHours :=
             s.totalElapsedTimeHours + stepTime cfg s.lastPointInSegment p2 }]
      idealCoords := s.idealCoords ++ [p2]
      idCounter := s.idCounter + 1
      time := s.time + 10
      totalElapsedTimeHours :=
        s.totalElapsedTimeHours + stepTime cfg s.lastPointInSegment p2
      lastPointInSegment := p2 }

/-- Normal form of `outerBody`: guard on depletion, run the inner loop,
then close the segment with the final leg. -/
theorem outerBody_eq (cfg : WindConfig) (s : GenState)
    (seg : Coordinate × Coordinate) :
    outerBody cfg s seg =
      (if s.batteryDepleted then s
       else if (runInner cfg seg.1 seg.2
           (⌊haversineDistance seg.1 seg.2 / 0.5⌋.toNat) s).batteryDepleted then
         runInner cfg seg.1 seg.2 (⌊haversineDistance seg.1 seg.2 / 0.5⌋.toNat) s
       else
         finalLeg cfg seg.2
           (runInner cfg seg.1 seg.2 (⌊haversineDistance seg.1 seg.2 / 0.5⌋.toNat) s)) := by
  show outerBody cfg s seg = _
  unfold outerBody addWaypoint finalLeg
  cases hcw : cfg.useCustomWind <;>
    simp [stepTime, windAt, dirAt, hcw]

/-! ### Invariant propagation through the loops -/

/-- The state reached by `generatePath` just before the outer loop:
first vertex appended as an `initial` waypoint at elapsed time 0, first
ideal coordinate pushed. -/
noncomputable def startState (t : ℤ) (p0 : Coordinate) : GenState :=
  { waypoints :=
      [{ lat := p0.lat, lng := p0.lng, id := 0, type := WaypointType.initial,
         timestamp := t + 10,
         temperature := (getSimulatedData p0.lat p0.lng).temperature,
         windSpeed := (getSimulatedData p0.lat p0.lng).windSpeed,
         windDirection := (getSimulatedData p0.lat p0.lng).windDirection,
         elapsedTimeHours := 0 }],
    idealCoords := [p0], idCounter := 1, time := t + 10,
    totalElapsedTimeHours := 0, batteryDepleted := false,
    finalWaypointIndex := 0, lastPointInSegment := p0 }

/-- The `WindConfig` built by `generatePathAux` from its scalar
arguments (ceiling converted from minutes to hours). -/
noncomputable def mkCfg (cw : Bool) (pws pwd : ℝ) (mm : Option ℝ) : WindConfig :=
  ⟨cw, pws, pwd, mm.map (· / 60)⟩

/-- The generator state after the outer fold. -/
noncomputable def finalState (t : ℤ) (p0 : Coordinate) (rest : List Coordinate)
    (cfg : WindConfig) : GenState :=
  ((p0 :: rest).zip rest).foldl (outerBody cfg) (startState t p0)

/-- `generatePathAux` in terms of `startState` and the outer fold. -/
theorem generatePathAux_eq (t : ℤ) (p0 : Coordinate) (rest : List Coordinate)
    (cw : Bool) (pws pwd : ℝ) (mm : Option ℝ) :
    generatePathAux t p0 rest cw pws pwd mm =
      { waypoints := (finalState t p0 rest (mkCfg cw pws pwd mm)).waypoints,
        idealCoords := (finalState t p0 rest (mkCfg cw pws pwd mm)).idealCoords,
        batteryDepleted :=
          (finalState t p0 rest (mkCfg cw pws pwd mm)).batteryDepleted,
        finalWaypointIndex :=
          if (finalState t p0 rest (mkCfg cw pws pwd mm)).batteryDepleted then
            (finalState t p0 rest (mkCfg cw pws pwd mm)).finalWaypointIndex
          else (finalState t p0 rest (mkCfg cw pws pwd mm)).waypoints.length - 1 } := by
  simp [generatePathAux, addWaypoint, startState, finalState, mkCfg]

/-- Propagation of a state predicate through the inner loop. -/
theorem runInner_preserve {P : GenState → Prop} (cfg : WindConfig)
    (p1 p2 : Coordinate) (n : ℕ)
    (hInner : ∀ j s, s.batteryDepleted = false → P s →
      P (innerBody cfg p1 p2 n j s)) :
    ∀ s, P s → P (runInner cfg p1 p2 n s) := by
  unfold runInner
  generalize List.range' 1 n = js
  induction js with
  | nil => intro s h; simpa using h
  | cons j js ih =>
    intro s h
    simp only [List.foldl_cons]
    cases hdep : s.batteryDepleted
    · rw [if_neg (by simp [hdep])]
      exact ih _ (hInner j s hdep h)
    · rw [if_pos (by simp [hdep])]
      exact ih _ h

/-- Propagation of a state predicate through the outer fold. -/
theorem outerFold_preserve {P : GenState → Prop} (cfg : WindConfig)
    (segs : List (Coordinate × Coordinate))
    (hstep : ∀ seg ∈ segs, ∀ s, P s → P (outerBody cfg s seg)) :
    ∀ s, P s → P (segs.foldl (outerBody cfg) s) := by
  induction segs with
  | nil => intro s h; simpa using h
  | cons seg segs ih =>
    intro s h
    simp only [List.foldl_cons]
    exact ih (fun sg hsg s' h' => hstep sg (List.mem_cons_of_mem _ hsg) s' h') _
      (hstep seg (List.mem_cons_self _ _) s h)

/-- Propagation of a state predicate through `outerBody`, reduced to the
three atomic transformations (interpolation step, final-leg depletion,
segment-closing append). -/
theorem outerBody_preserve {P : GenState → Prop} (cfg : WindConfig)
    (seg : Coordinate × Coordinate)
    (hInner : ∀ p1 p2 n j s, s.batteryDepleted = false → P s →
      P (innerBody cfg p1 p2 n j s))
    (hDep : ∀ s : GenState, s.batteryDepleted = false → P s →
      P { s with
            totalElapsedTimeHours :=
              s.totalElapsedTimeHours + stepTime cfg s.lastPointInSegment seg.2
            batteryDepleted := true
            finalWaypointIndex := s.waypoints.length - 1 })
    (hApp : ∀ s : GenState, s.batteryDepleted = false → P s →
      P { s with
            waypoints := s.waypoints ++
              [{ lat := seg.2.lat, lng := seg.2.lng, id := s.idCounter,
                 type := WaypointType.initial, timestamp := s.time + 10,
                 temperature := (getSimulatedData seg.2.lat seg.2.lng).temperature,
                 windSpeed := (getSimulatedData seg.2.lat seg.2.lng).windSpeed,
                 windDirection := (getSimulatedData seg.2.lat seg.2.lng).windDirection,
                 elapsedTimeHours :=
                   s.totalElapsedTimeHours + stepTime cfg s.lastPointInSegment seg.2 }]
            idealCoords := s.idealCoords ++ [seg.2]
            idCounter := s.idCounter + 1
            time := s.time + 10
            totalElapsedTimeHours :=
              s.totalElapsedTimeHours + stepTime cfg s.lastPointInSegment seg.2
            lastPointInSegment := seg.2 }) :
    ∀ s, P s → P (outerBody cfg s seg) := by
  intro s h
  rw [outerBody_eq]
  cases hdep : s.batteryDepleted
  · rw [if_neg (by simp [hdep])]
    generalize hs1 : runInner cfg seg.1 seg.2
      (⌊haversineDistance seg.1 seg.2 / 0.5⌋.toNat) s = s1
    have h1 : P s1 := by
      rw [← hs1]
      exact runInner_preserve cfg seg.1 seg.2 _
        (fun j s' => hInner seg.1 seg.2 _ j s') s h
    cases hdep1 : s1.batteryDepleted
    · rw [if_neg (by simp [hdep1])]
      unfold finalLeg
      by_cases hex : exceedsLimit cfg.maxFlightTimeHours
        (s1.totalElapsedTimeHours + stepTime cfg s1.lastPointInSegment seg.2)
      · rw [if_pos hex]
        exact hDep s1 hdep1 h1
      · rw [if_neg hex]
        exact hApp s1 hdep1 h1
    · rw [if_pos (by simp [hdep1])]
      exact h1
  · rw [if_pos (by simp [hdep])]
    exact h

/-! ### The core structural invariant of the generator state -/

/-- Structural invariant: the id counter tracks the waypoint count, ids
are `0, 1, 2, ...` in order, a set depletion flag pins
`finalWaypointIndex` to the index of the last appended waypoint, and the
ideal-coordinate list is as long as the waypoint list (one longer
exactly when the flag was set at an interpolated step). -/
def CoreInv (s : GenState) : Prop :=
  s.idCounter = s.waypoints.length ∧
    s.waypoints.map Waypoint.id = List.range s.waypoints.length ∧
    (s.batteryDepleted = true → s.finalWaypointIndex = s.waypoints.length - 1) ∧
    (s.batteryDepleted = false → s.idealCoords.length = s.waypoints.length) ∧
    (s.idealCoords.length = s.waypoints.length ∨
      s.idealCoords.length = s.waypoints.length + 1)

theorem coreInv_innerBody (cfg : WindConfig) (p1 p2 : Coordinate) (n j : ℕ)
    (s : GenState) (hdep : s.batteryDepleted = false) (h : CoreInv s) :
    CoreInv (innerBody cfg p1 p2 n j s) := by
  obtain ⟨h1, h2, h3, h4, h5⟩ := h
  simp only [innerBody_eq]
  split
  · refine ⟨h1, h2, ?_, ?_, ?_⟩
    · intro
      rfl
    · simp
    · right
      simp [h4 hdep]
  · refine ⟨?_, ?_, ?_, ?_, ?_⟩
    · simp [h1]
    · simp [h2, List.range_succ, h1]
    · rw [hdep]
      simp
    · intro
      simp [h4 hdep]
    · left
      simp [h4 hdep]

theorem coreInv_startState (t : ℤ) (p0 : Coordinate) :
    CoreInv (startState t p0) := by
  refine ⟨rfl, by simp [startState, List.range_succ], by simp [startState],
    by simp [startState], by simp [startState]⟩

theorem coreInv_outerBody (cfg : WindConfig) (seg : Coordinate × Coordinate)
    (s : GenState) (h : CoreInv s) : CoreInv (outerBody cfg s seg) := by
  refine outerBody_preserve cfg seg (fun p1 p2 n j s' hdep' h' =>
    coreInv_innerBody cfg p1 p2 n j s' hdep' h') ?_ ?_ s h
  · intro s' hdep' h'
    obtain ⟨h1, h2, h3, h4, h5⟩ := h'
    refine ⟨h1, h2, fun _ => rfl, by simp, Or.inl (h4 hdep')⟩
  · intro s' hdep' h'
    obtain ⟨h1, h2, h3, h4, h5⟩ := h'
    refine ⟨by simp [h1], by simp [h2, List.range_succ, h1], ?_, ?_, ?_⟩
    · rw [hdep']
      simp
    · intro
      simp [h4 hdep']
    · left
      simp [h4 hdep']

/-- `CoreInv` holds for the final state of the outer fold. -/
theorem coreInv_final (t : ℤ) (p0 : Coordinate) (rest : List Coordinate)
    (cfg : WindConfig) : CoreInv (finalState t p0 rest cfg) :=
  outerFold_preserve cfg _ (fun seg _ s h => coreInv_outerBody cfg seg s h) _
    (coreInv_startState t p0)

/-- `generatePath` on a nonempty vertex list, unfolded once. -/
theorem generatePath_result (t : ℤ) (p0 : Coordinate) (rest : List Coordinate)
    (cw : Bool) (pws pwd : ℝ) (mm : Option ℝ) :
    generatePath t (p0 :: rest) cw pws pwd mm =
      some (generatePathAux t p0 rest cw pws pwd mm) := rfl

/-- Evaluation of `generatePathAux` on the single vertex `(0,0)`:
one `initial` waypoint carrying the simulated data of the origin, no
depletion. -/
theorem generatePathAux_single (t : ℤ) (cw : Bool) (pws pwd : ℝ) (mm : Option ℝ) :
    generatePathAux t ⟨0, 0⟩ [] cw pws pwd mm =
      { waypoints :=
          [{ lat := 0
             lng := 0
             id := 0
             type := WaypointType.initial
             timestamp := t + 10
             temperature := 20
             windSpeed := 10
             windDirection := 0
             elapsedTimeHours := 0 }]
        idealCoords := [⟨0, 0⟩]
        batteryDepleted := false
        finalWaypointIndex := 0 } := by
  rw [generatePathAux_eq]
  norm_num [startState, finalState, getSimulatedData, jsMod, jsTrunc]

/-! ### Claim C8: waypoint ids are contiguous from 0 -/

/-- Ids read off a list whose id projection is `range`. -/
theorem get_id_of_map_range (l : List Waypoint)
    (hl : l.map Waypoint.id = List.range l.length) :
    ∀ i (h : i < l.length), (l.get ⟨i, h⟩).id = i := by
  intro i h
  have h2 := congrArg (fun L : List ℕ => L[i]?) hl
  simp only [List.getElem?_map, List.getElem?_range, h, if_pos,
    List.getElem?_eq_getElem, Option.map_some'] at h2
  have h3 := Option.some.inj h2
  simpa using h3

/-- **C8**: in every trajectory returned by `generatePath`, waypoint ids
are contiguous starting at 0 in generation order: `waypoints[i].id == i`
for every index. -/
theorem generatePath_ids (t : ℤ) (ps : List Coordinate) (cw : Bool)
    (pws pwd : ℝ) (mm : Option ℝ) (r : GenResult)
    (hr : generatePath t ps cw pws pwd mm = some r) :
    ∀ i (h : i < r.waypoints.length), (r.waypoints.get ⟨i, h⟩).id = i := by
  match ps with
  | [] => simp [generatePath] at hr
  | p0 :: rest =>
    rw [generatePath_result] at hr
    have hr' := Option.some.inj hr
    subst hr'
    rw [generatePathAux_eq]
    obtain ⟨-, h2, -, -, -⟩ := coreInv_final t p0 rest (mkCfg cw pws pwd mm)
    exact get_id_of_map_range _ h2

/-- Witness for C8 at the concrete call
`generatePath 0 [(0,0)] false 0 0 none`. -/
theorem generatePath_ids_witness :
    ((generatePathAux 0 ⟨0, 0⟩ [] false 0 0 none).waypoints.get
      ⟨0, by rw [generatePathAux_single]; simp⟩).id = 0 :=
  generatePath_ids 0 [⟨0, 0⟩] false 0 0 none _ rfl 0
    (by rw [generatePathAux_single]; simp)

/-! ### Claim C10: length of the ideal-coordinate list -/

/-- **C10**: the ideal-coordinate list is as long as the waypoint list
or exactly one longer; it is never longer without depletion, an excess
of one implies the run depleted, and the excess arises exactly when the
cutoff fires at an interpolated step: an inner-loop step that sets the
depletion flag pushes the ideal point but appends no waypoint, while a
final-leg cutoff leaves both lists unchanged. -/
theorem generatePath_idealCoords_length (t : ℤ) (ps : List Coordinate)
    (cw : Bool) (pws pwd : ℝ) (mm : Option ℝ) (r : GenResult)
    (hr : generatePath t ps cw pws pwd mm = some r) :
    ((r.idealCoords.length = r.waypoints.length ∨
        r.idealCoords.length = r.waypoints.length + 1) ∧
      (r.batteryDepleted = false →
        r.idealCoords.length = r.waypoints.length) ∧
      (r.idealCoords.length = r.waypoints.length + 1 →
        r.batteryDepleted = true)) ∧
    (∀ (cfg : WindConfig) (p1 p2 : Coordinate) (n j : ℕ) (s : GenState),
      s.batteryDepleted = false →
        (innerBody cfg p1 p2 n j s).batteryDepleted = true →
          (innerBody cfg p1 p2 n j s).idealCoords.length =
              s.idealCoords.length + 1 ∧
            (innerBody cfg p1 p2 n j s).waypoints = s.waypoints) ∧
    (∀ (cfg : WindConfig) (p2 : Coordinate) (s : GenState),
      s.batteryDepleted = false → (finalLeg cfg p2 s).batteryDepleted = true →
        (finalLeg cfg p2 s).idealCoords = s.idealCoords ∧
          (finalLeg cfg p2 s).waypoints = s.waypoints) := by
  refine ⟨?_, ?_, ?_⟩
  · match ps with
    | [] => simp [generatePath] at hr
    | p0 :: rest =>
      rw [generatePath_result] at hr
      have hr' := Option.some.inj hr
      subst hr'
      rw [generatePathAux_eq]
      obtain ⟨-, -, -, h4, h5⟩ := coreInv_final t p0 rest (mkCfg cw pws pwd mm)
      refine ⟨h5, h4, ?_⟩
      intro hlen
      cases hdep : (finalState t p0 rest (mkCfg cw pws pwd mm)).batteryDepleted
      · have := h4 hdep
        simp only [] at hlen
        omega
      · rfl
  · intro cfg p1 p2 n j s hdep hdep'
    rw [innerBody_eq] at hdep' ⊢
    simp only [] at hdep' ⊢
    split at hdep'
    · rename_i hex
      rw [if_pos hex]
      constructor
      · simp
      · rfl
    · rw [hdep] at hdep'
      simp at hdep'
  · intro cfg p2 s hdep hdep'
    unfold finalLeg at hdep' ⊢
    split at hdep'
    · rename_i hex
      rw [if_pos hex]
      exact ⟨rfl, rfl⟩
    · rw [hdep] at hdep'
      simp at hdep'

/-- Witness for C10 at the concrete call
`generatePath 0 [(0,0)] false 0 0 none`. -/
theorem generatePath_idealCoords_length_witness :
    (((generatePathAux 0 ⟨0, 0⟩ [] false 0 0 none).idealCoords.length =
          (generatePathAux 0 ⟨0, 0⟩ [] false 0 0 none).waypoints.length ∨
        (generatePathAux 0 ⟨0, 0⟩ [] false 0 0 none).idealCoords.length =
          (generatePathAux 0 ⟨0, 0⟩ [] false 0 0 none).waypoints.length + 1) ∧
      ((generatePathAux 0 ⟨0, 0⟩ [] false 0 0 none).batteryDepleted = false →
        (generatePathAux 0 ⟨0, 0⟩ [] false 0 0 none).idealCoords.length =
          (generatePathAux 0 ⟨0, 0⟩ [] false 0 0 none).waypoints.length) ∧
      ((generatePathAux 0 ⟨0, 0⟩ [] false 0 0 none).idealCoords.length =
          (generatePathAux 0 ⟨0, 0⟩ [] false 0 0 none).waypoints.length + 1 →
        (generatePathAux 0 ⟨0, 0⟩ [] false 0 0 none).batteryDepleted = true)) ∧
    (∀ (cfg : WindConfig) (p1 p2 : Coordinate) (n j : ℕ) (s : GenState),
      s.batteryDepleted = false →
        (innerBody cfg p1 p2 n j s).batteryDepleted = true →
          (innerBody cfg p1 p2 n j s).idealCoords.length =
              s.idealCoords.length + 1 ∧
            (innerBody cfg p1 p2 n j s).waypoints = s.waypoints) ∧
    (∀ (cfg : WindConfig) (p2 : Coordinate) (s : GenState),
      s.batteryDepleted = false → (finalLeg cfg p2 s).batteryDepleted = true →
        (finalLeg cfg p2 s).idealCoords = s.idealCoords ∧
          (finalLeg cfg p2 s).waypoints = s.waypoints) :=
  generatePath_idealCoords_length 0 [⟨0, 0⟩] false 0 0 none _ rfl

/-! ### Claim C1 (amended): depletion pins the final waypoint index -/

/-- **C1 (amended)**: whenever `generatePath` reports
`batteryDepleted = true`, `finalWaypointIndex` equals
`waypoints.length - 1`, the index of the last waypoint already appended
(no further waypoint of any kind follows it). -/
theorem generatePath_depleted_finalIndex (t : ℤ) (ps : List Coordinate)
    (cw : Bool) (pws pwd : ℝ) (mm : Option ℝ) (r : GenResult)
    (hr : generatePath t ps cw pws pwd mm = some r)
    (hdep : r.batteryDepleted = true) :
    r.finalWaypointIndex = r.waypoints.length - 1 := by
  match ps with
  | [] => simp [generatePath] at hr
  | p0 :: rest =>
    rw [generatePath_result] at hr
    have hr' := Option.some.inj hr
    subst hr'
    rw [generatePathAux_eq] at hdep ⊢
    obtain ⟨-, -, h3, -, -⟩ := coreInv_final t p0 rest (mkCfg cw pws pwd mm)
    have hdep' : (finalState t p0 rest (mkCfg cw pws pwd mm)).batteryDepleted = true := hdep
    show (if (finalState t p0 rest (mkCfg cw pws pwd mm)).batteryDepleted then
        (finalState t p0 rest (mkCfg cw pws pwd mm)).finalWaypointIndex
      else (finalState t p0 rest (mkCfg cw pws pwd mm)).waypoints.length - 1) =
      (finalState t p0 rest (mkCfg cw pws pwd mm)).waypoints.length - 1
    rw [hdep']
    simp [h3 hdep']

/-! ### Claim C7: initial waypoints are exact input vertices -/

/-- Every `initial`-typed waypoint in the state carries the exact
coordinates of one of the vertices in `ps`. -/
def VertexInv (ps : List Coordinate) (s : GenState) : Prop :=
  ∀ w ∈ s.waypoints, w.type = WaypointType.initial →
    ∃ v ∈ ps, w.lat = v.lat ∧ w.lng = v.lng

theorem vertexInv_innerBody (ps : List Coordinate) (cfg : WindConfig)
    (p1 p2 : Coordinate) (n j : ℕ) (s : GenState)
    (hdep : s.batteryDepleted = false) (h : VertexInv ps s) :
    VertexInv ps (innerBody cfg p1 p2 n j s) := by
  simp only [innerBody_eq]
  split
  · exact h
  · intro w hw hty
    dsimp only at hw
    rcases List.mem_append.mp hw with hw' | hw'
    · exact h w hw' hty
    · rw [List.mem_singleton] at hw'
      subst hw'
      simp at hty

theorem vertexInv_outerBody (ps : List Coordinate) (cfg : WindConfig)
    (seg : Coordinate × Coordinate) (hseg : seg.2 ∈ ps) (s : GenState)
    (h : VertexInv ps s) : VertexInv ps (outerBody cfg s seg) := by
  refine outerBody_preserve cfg seg
    (fun p1 p2 n j s' hdep' h' => vertexInv_innerBody ps cfg p1 p2 n j s' hdep' h')
    ?_ ?_ s h
  · intro s' _ h'
    exact h'
  · intro s' _ h'
    intro w hw hty
    dsimp only at hw
    rcases List.mem_append.mp hw with hw' | hw'
    · exact h' w hw' hty
    · rw [List.mem_singleton] at hw'
      subst hw'
      exact ⟨seg.2, hseg, rfl, rfl⟩

theorem vertexInv_final (t : ℤ) (p0 : Coordinate) (rest : List Coordinate)
    (cfg : WindConfig) : VertexInv (p0 :: rest) (finalState t p0 rest cfg) := by
  refine outerFold_preserve cfg _ ?_ _ ?_
  · intro seg hmem s h
    have h2 : seg.2 ∈ p0 :: rest :=
      List.mem_cons_of_mem p0 (List.of_mem_zip hmem).2
    exact vertexInv_outerBody _ cfg seg h2 s h
  · intro w hw hty
    simp only [startState, List.mem_singleton] at hw
    subst hw
    exact ⟨p0, List.mem_cons_self _ _, rfl, rfl⟩

/-- The first waypoint emitted by the generator. -/
noncomputable def startWp (t : ℤ) (p0 : Coordinate) : Waypoint :=
  { lat := p0.lat, lng := p0.lng, id := 0, type := WaypointType.initial,
    timestamp := t + 10,
    temperature := (getSimulatedData p0.lat p0.lng).temperature,
    windSpeed := (getSimulatedData p0.lat p0.lng).windSpeed,
    windDirection := (getSimulatedData p0.lat p0.lng).windDirection,
    elapsedTimeHours := 0 }

/-- The head of the waypoint list stays the first emitted waypoint. -/
def HeadInv (t : ℤ) (p0 : Coordinate) (s : GenState) : Prop :=
  s.waypoints.head? = some (startWp t p0)

theorem head?_append_some {α : Type} {l l' : List α} {a : α}
    (h : l.head? = some a) : (l ++ l').head? = some a := by
  cases l with
  | nil => simp at h
  | cons x xs => simpa using h

theorem headInv_innerBody (t : ℤ) (p0 : Coordinate) (cfg : WindConfig)
    (p1 p2 : Coordinate) (n j : ℕ) (s : GenState)
    (hdep : s.batteryDepleted = false) (h : HeadInv t p0 s) :
    HeadInv t p0 (innerBody cfg p1 p2 n j s) := by
  simp only [innerBody_eq]
  split
  · exact h
  · exact head?_append_some h

theorem headInv_outerBody (t : ℤ) (p0 : Coordinate) (cfg : WindConfig)
    (seg : Coordinate × Coordinate) (s : GenState) (h : HeadInv t p0 s) :
    HeadInv t p0 (outerBody cfg s seg) := by
  refine outerBody_preserve cfg seg
    (fun p1 p2 n j s' hdep' h' => headInv_innerBody t p0 cfg p1 p2 n j s' hdep' h')
    ?_ ?_ s h
  · intro s' _ h'
    exact h'
  · intro s' _ h'
    exact head?_append_some h'

theorem headInv_final (t : ℤ) (p0 : Coordinate) (rest : List Coordinate)
    (cfg : WindConfig) : HeadInv t p0 (finalState t p0 rest cfg) := by
  refine outerFold_preserve cfg _
    (fun seg _ s h => headInv_outerBody t p0 cfg seg s h) _ ?_
  simp [HeadInv, startState, startWp]

/-- **C7**: every `initial`-typed waypoint of a generated trajectory has
(lat, lng) exactly equal to one of the input vertices, and the
trajectory begins with an `initial` waypoint at the first input vertex
with `elapsedTimeHours = 0`. -/
theorem generatePath_initial_waypoints (t : ℤ) (ps : List Coordinate)
    (cw : Bool) (pws pwd : ℝ) (mm : Option ℝ) (r : GenResult)
    (hr : generatePath t ps cw pws pwd mm = some r) :
    (∀ w ∈ r.waypoints, w.type = WaypointType.initial →
        ∃ v ∈ ps, w.lat = v.lat ∧ w.lng = v.lng) ∧
      ∃ w0 v0, r.waypoints.head? = some w0 ∧ ps.head? = some v0 ∧
        w0.type = WaypointType.initial ∧ w0.lat = v0.lat ∧ w0.lng = v0.lng ∧
        w0.elapsedTimeHours = 0 := by
  match ps with
  | [] => simp [generatePath] at hr
  | p0 :: rest =>
    rw [generatePath_result] at hr
    have hr' := Option.some.inj hr
    subst hr'
    rw [generatePathAux_eq]
    constructor
    · exact vertexInv_final t p0 rest (mkCfg cw pws pwd mm)
    · refine ⟨startWp t p0, p0, ?_, rfl, rfl, rfl, rfl, rfl⟩
      exact headInv_final t p0 rest (mkCfg cw pws pwd mm)

/-- Witness for C7 at the concrete call
`generatePath 0 [(0,0)] false 0 0 none`. -/
theorem generatePath_initial_waypoints_witness :
    (∀ w ∈ (generatePathAux 0 ⟨0, 0⟩ [] false 0 0 none).waypoints,
        w.type = WaypointType.initial →
          ∃ v ∈ [(⟨0, 0⟩ : Coordinate)], w.lat = v.lat ∧ w.lng = v.lng) ∧
      ∃ w0 v0,
        (generatePathAux 0 ⟨0, 0⟩ [] false 0 0 none).waypoints.head? = some w0 ∧
        [(⟨0, 0⟩ : Coordinate)].head? = some v0 ∧
        w0.type = WaypointType.initial ∧ w0.lat = v0.lat ∧ w0.lng = v0.lng ∧
        w0.elapsedTimeHours = 0 :=
  generatePath_initial_waypoints 0 [⟨0, 0⟩] false 0 0 none _ rfl

/-! ### Claim C6: elapsed time is monotonically non-decreasing -/

/-- Elapsed times are chained non-decreasingly along the waypoint list
and never exceed the running total. -/
def MonoInv (s : GenState) : Prop :=
  List.Chain' (fun a b => a.elapsedTimeHours ≤ b.elapsedTimeHours) s.waypoints ∧
    ∀ w ∈ s.waypoints, w.elapsedTimeHours ≤ s.totalElapsedTimeHours

theorem monoInv_append (l : List Waypoint) (wp : Waypoint) (tot tot' : ℝ)
    (hc : List.Chain' (fun a b => a.elapsedTimeHours ≤ b.elapsedTimeHours) l)
    (hall : ∀ w ∈ l, w.elapsedTimeHours ≤ tot)
    (htot : tot ≤ tot') (hwp : wp.elapsedTimeHours = tot') :
    List.Chain' (fun a b => a.elapsedTimeHours ≤ b.elapsedTimeHours) (l ++ [wp]) ∧
      ∀ w ∈ l ++ [wp], w.elapsedTimeHours ≤ tot' := by
  constructor
  · rw [List.chain'_append]
    refine ⟨hc, List.chain'_singleton wp, ?_⟩
    intro x hx y hy
    simp only [List.head?_cons, Option.mem_def, Option.some.injEq] at hy
    subst hy
    obtain ⟨hne, hxl⟩ := List.mem_getLast?_eq_getLast hx
    subst hxl
    rw [hwp]
    exact le_trans (hall _ (List.getLast_mem hne)) htot
  · intro w hwmem
    rcases List.mem_append.mp hwmem with hw' | hw'
    · exact le_trans (hall w hw') htot
    · rw [List.mem_singleton] at hw'
      subst hw'
      rw [hwp]

theorem monoInv_innerBody (cfg : WindConfig) (p1 p2 : Coordinate) (n j : ℕ)
    (s : GenState)
    (hw : cfg.useCustomWind = true → 0 ≤ cfg.playgroundWindSpeed)
    (hdep : s.batteryDepleted = false) (h : MonoInv s) :
    MonoInv (innerBody cfg p1 p2 n j s) := by
  obtain ⟨hc, hall⟩ := h
  have hst := stepTime_nonneg cfg s.lastPointInSegment
    (interpolatePoint p1 p2 ((j : ℝ) / ((n : ℝ) + 1))) hw
  simp only [innerBody_eq]
  split
  · refine ⟨hc, ?_⟩
    intro w hwmem
    have := hall w hwmem
    dsimp only
    linarith
  · exact monoInv_append s.waypoints _ s.totalElapsedTimeHours
      (s.totalElapsedTimeHours + stepTime cfg s.lastPointInSegment
        (interpolatePoint p1 p2 ((j : ℝ) / ((n : ℝ) + 1))))
      hc hall (by linarith) rfl

theorem monoInv_outerBody (cfg : WindConfig) (seg : Coordinate × Coordinate)
    (hw : cfg.useCustomWind = true → 0 ≤ cfg.playgroundWindSpeed)
    (s : GenState) (h : MonoInv s) : MonoInv (outerBody cfg s seg) := by
  refine outerBody_preserve cfg seg
    (fun p1 p2 n j s' hdep' h' => monoInv_innerBody cfg p1 p2 n j s' hw hdep' h')
    ?_ ?_ s h
  · intro s' _ h'
    obtain ⟨hc, hall⟩ := h'
    have hst := stepTime_nonneg cfg s'.lastPointInSegment seg.2 hw
    refine ⟨hc, ?_⟩
    intro w hwmem
    have := hall w hwmem
    dsimp only
    linarith
  · intro s' _ h'
    obtain ⟨hc, hall⟩ := h'
    have hst := stepTime_nonneg cfg s'.lastPointInSegment seg.2 hw
    exact monoInv_append s'.waypoints _ s'.totalElapsedTimeHours
      (s'.totalElapsedTimeHours + stepTime cfg s'.lastPointInSegment seg.2)
      hc hall (by linarith) rfl

theorem monoInv_final (t : ℤ) (p0 : Coordinate) (rest : List Coordinate)
    (cfg : WindConfig)
    (hw : cfg.useCustomWind = true → 0 ≤ cfg.playgroundWindSpeed) :
    MonoInv (finalState t p0 rest cfg) := by
  refine outerFold_preserve cfg _
    (fun seg _ s h => monoInv_outerBody cfg seg hw s h) _ ?_
  refine ⟨?_, ?_⟩
  · exact List.chain'_singleton _
  · intro w hwmem
    simp only [startState, List.mem_singleton] at hwmem
    subst hwmem
    simp [startState]

/-- **C6**: for every trajectory generated by `generatePath` with a
nonnegative custom wind speed (whenever custom wind is enabled),
`elapsedTimeHours` is monotonically non-decreasing along the waypoint
list. -/
theorem generatePath_elapsed_mono (t : ℤ) (ps : List Coordinate) (cw : Bool)
    (pws pwd : ℝ) (mm : Option ℝ) (r : GenResult)
    (hw : cw = true → 0 ≤ pws)
    (hr : generatePath t ps cw pws pwd mm = some r) :
    ∀ (i : ℕ) (h : i < r.waypoints.length - 1),
      (r.waypoints.get ⟨i, by omega⟩).elapsedTimeHours ≤
        (r.waypoints.get ⟨i + 1, by omega⟩).elapsedTimeHours := by
  match ps with
  | [] => simp [generatePath] at hr
  | p0 :: rest =>
    rw [generatePath_result] at hr
    have hr' := Option.some.inj hr
    subst hr'
    rw [generatePathAux_eq]
    have hm := monoInv_final t p0 rest (mkCfg cw pws pwd mm) hw
    exact List.chain'_iff_get.mp hm.1

/-- Witness for C6 at the concrete call
`generatePath 0 [(0,0)] false 0 0 none` (the wind hypothesis holds
vacuously). -/
theorem generatePath_elapsed_mono_witness :
    ((false = true → (0 : ℝ) ≤ 0) ∧
      ∀ (i : ℕ)
        (h : i < (generatePathAux 0 ⟨0, 0⟩ [] false 0 0 none).waypoints.length - 1),
        ((generatePathAux 0 ⟨0, 0⟩ [] false 0 0 none).waypoints.get
            ⟨i, by omega⟩).elapsedTimeHours ≤
          ((generatePathAux 0 ⟨0, 0⟩ [] false 0 0 none).waypoints.get
            ⟨i + 1, by omega⟩).elapsedTimeHours) :=
  ⟨by simp, generatePath_elapsed_mono 0 [⟨0, 0⟩] false 0 0 none _ (by simp) rfl⟩

/-! ### Claim C3: zero custom wind leaves the trajectory on the ideal path -/

/-- With custom wind at speed zero the drift vanishes exactly. -/
theorem driftedPoint_zero_wind (cfg : WindConfig) (pt : Coordinate) (stime : ℝ)
    (hcw : cfg.useCustomWind = true) (hzero : cfg.playgroundWindSpeed = 0) :
    driftedPoint cfg pt stime = pt := by
  ext <;> simp [driftedPoint, windAt, hcw, hzero]

/-- The waypoint list (projected to coordinates) tracks the prefix of
the ideal-coordinate list of its length. -/
def TrackInv (s : GenState) : Prop :=
  s.waypoints.map Waypoint.toCoordinate = s.idealCoords.take s.waypoints.length ∧
    (s.batteryDepleted = false → s.idealCoords.length = s.waypoints.length)

theorem trackInv_innerBody (cfg : WindConfig) (p1 p2 : Coordinate) (n j : ℕ)
    (s : GenState) (hcw : cfg.useCustomWind = true)
    (hzero : cfg.playgroundWindSpeed = 0)
    (hdep : s.batteryDepleted = false) (h : TrackInv s) :
    TrackInv (innerBody cfg p1 p2 n j s) := by
  obtain ⟨hmap, hlen⟩ := h
  have hlen' := hlen hdep
  simp only [innerBody_eq]
  split
  · refine ⟨?_, ?_⟩
    · dsimp only
      rw [List.take_append_of_le_length (by omega), hmap]
    · intro hfalse
      simp at hfalse
  · refine ⟨?_, ?_⟩
    · dsimp only
      rw [driftedPoint_zero_wind cfg _ _ hcw hzero, List.map_append]
      have h1 : s.waypoints.map Waypoint.toCoordinate = s.idealCoords := by
        rw [hmap, ← hlen', List.take_length]
      rw [h1, List.length_append]
      simp only [List.length_cons, List.length_nil, zero_add]
      rw [show s.waypoints.length + 1 =
        (s.idealCoords ++ [interpolatePoint p1 p2 ((j : ℝ) / ((n : ℝ) + 1))]).length
        from by simp [hlen'], List.take_length]
      simp [Waypoint.toCoordinate]
    · intro
      simp [← hlen']

theorem trackInv_outerBody (cfg : WindConfig) (seg : Coordinate × Coordinate)
    (hcw : cfg.useCustomWind = true) (hzero : cfg.playgroundWindSpeed = 0)
    (s : GenState) (h : TrackInv s) : TrackInv (outerBody cfg s seg) := by
  refine outerBody_preserve cfg seg
    (fun p1 p2 n j s' hdep' h' =>
      trackInv_innerBody cfg p1 p2 n j s' hcw hzero hdep' h') ?_ ?_ s h
  · intro s' _ h'
    exact ⟨h'.1, fun hfalse => by simp at hfalse⟩
  · intro s' hdep' h'
    obtain ⟨hmap, hlen⟩ := h'
    have hlen' := hlen hdep'
    refine ⟨?_, ?_⟩
    · dsimp only
      rw [List.map_append]
      have h1 : s'.waypoints.map Waypoint.toCoordinate = s'.idealCoords := by
        rw [hmap, ← hlen', List.take_length]
      rw [h1, List.length_append]
      simp only [List.length_cons, List.length_nil, zero_add]
      rw [show s'.waypoints.length + 1 = (s'.idealCoords ++ [seg.2]).length
        from by simp [hlen'], List.take_length]
      simp [Waypoint.toCoordinate]
    · intro
      simp [← hlen']

theorem trackInv_final (t : ℤ) (p0 : Coordinate) (rest : List Coordinate)
    (cfg : WindConfig) (hcw : cfg.useCustomWind = true)
    (hzero : cfg.playgroundWindSpeed = 0) :
    TrackInv (finalState t p0 rest cfg) := by
  refine outerFold_preserve cfg _
    (fun seg _ s h => trackInv_outerBody cfg seg hcw hzero s h) _ ?_
  constructor
  · simp [startState, Waypoint.toCoordinate]
  · intro
    simp [startState]

/-- **C3**: with custom wind enabled at speed 0, every waypoint of the
generated trajectory (in particular every `interpolated` one) has
coordinates exactly equal to the ideal coordinate at the same position
— the computed drift is exactly zero. -/
theorem generatePath_zero_wind_ideal (t : ℤ) (ps : List Coordinate)
    (pwd : ℝ) (mm : Option ℝ) (r : GenResult)
    (hr : generatePath t ps true 0 pwd mm = some r) :
    ∀ (k : ℕ) (hk : k < r.waypoints.length) (hk' : k < r.idealCoords.length),
      (r.waypoints.get ⟨k, hk⟩).toCoordinate = r.idealCoords.get ⟨k, hk'⟩ := by
  match ps with
  | [] => simp [generatePath] at hr
  | p0 :: rest =>
    rw [generatePath_result] at hr
    have hr' := Option.some.inj hr
    subst hr'
    rw [generatePathAux_eq]
    dsimp only
    intro k hk hk'
    obtain ⟨hmap, -⟩ := trackInv_final t p0 rest (mkCfg true 0 pwd mm) rfl rfl
    have h2 := congrArg (fun L : List Coordinate => L[k]?) hmap
    simp only [List.getElem?_map, List.getElem?_take] at h2
    rw [List.getElem?_eq_getElem (by simpa using hk),
      List.getElem?_eq_getElem (by simpa using hk'), if_pos (by simpa using hk)] at h2
    have h3 := Option.some.inj h2
    simpa using h3

/-- Witness for C3 at the concrete call
`generatePath 0 [(0,0)] true 0 0 none`. -/
theorem generatePath_zero_wind_ideal_witness :
    ((generatePathAux 0 ⟨0, 0⟩ [] true 0 0 none).waypoints.get
        ⟨0, by rw [generatePathAux_single]; simp⟩).toCoordinate =
      (generatePathAux 0 ⟨0, 0⟩ [] true 0 0 none).idealCoords.get
        ⟨0, by rw [generatePathAux_single]; simp⟩ :=
  generatePath_zero_wind_ideal 0 [⟨0, 0⟩] 0 none _ rfl 0
    (by rw [generatePathAux_single]; simp)
    (by rw [generatePathAux_single]; simp)

/-! ### Claim C4: determinism and timestamp independence -/

/-- Every field of a waypoint except the wall-clock timestamp. -/
structure WaypointData where
  lat : ℝ
  lng : ℝ
  id : ℕ
  type : WaypointType
  temperature : ℝ
  windSpeed : ℝ
  windDirection : ℝ
  elapsedTimeHours : ℝ

/-- Forget the timestamp of a waypoint. -/
def Waypoint.toData (w : Waypoint) : WaypointData :=
  ⟨w.lat, w.lng, w.id, w.type, w.temperature, w.windSpeed, w.windDirection,
    w.elapsedTimeHours⟩

/-- Shift the timestamp of a waypoint by `δ` seconds. -/
def Waypoint.shiftTs (δ : ℤ) (w : Waypoint) : Waypoint :=
  { w with timestamp := w.timestamp + δ }

/-- Shift the clock of a generator state by `δ` seconds. -/
def GenState.shiftTs (δ : ℤ) (s : GenState) : GenState :=
  { s with time := s.time + δ, waypoints := s.waypoints.map (Waypoint.shiftTs δ) }

theorem innerBody_shiftTs (cfg : WindConfig) (p1 p2 : Coordinate) (n j : ℕ)
    (δ : ℤ) (s : GenState) :
    innerBody cfg p1 p2 n j (s.shiftTs δ) =
      (innerBody cfg p1 p2 n j s).shiftTs δ := by
  simp only [innerBody_eq]
  rw [apply_ite (GenState.shiftTs δ)]
  simp only [GenState.shiftTs]
  split
  · simp
  · simp [Waypoint.shiftTs]
    omega

theorem runInner_shiftTs (cfg : WindConfig) (p1 p2 : Coordinate) (n : ℕ)
    (δ : ℤ) (s : GenState) :
    runInner cfg p1 p2 n (s.shiftTs δ) = (runInner cfg p1 p2 n s).shiftTs δ := by
  unfold runInner
  generalize List.range' 1 n = js
  induction js generalizing s with
  | nil => simp
  | cons j js ih =>
    simp only [List.foldl_cons]
    cases hdep : s.batteryDepleted
    · rw [if_neg (by simp [GenState.shiftTs, hdep]),
        if_neg (by simp [hdep]), innerBody_shiftTs]
      exact ih _
    · rw [if_pos (by simp [GenState.shiftTs, hdep]), if_pos (by simp [hdep])]
      exact ih _

theorem finalLeg_shiftTs (cfg : WindConfig) (p2 : Coordinate) (δ : ℤ)
    (s : GenState) :
    finalLeg cfg p2 (s.shiftTs δ) = (finalLeg cfg p2 s).shiftTs δ := by
  unfold finalLeg
  by_cases hex : exceedsLimit cfg.maxFlightTimeHours
    (s.totalElapsedTimeHours + stepTime cfg s.lastPointInSegment p2)
  · rw [if_pos (show exceedsLimit cfg.maxFlightTimeHours
        ((GenState.shiftTs δ s).totalElapsedTimeHours +
          stepTime cfg (GenState.shiftTs δ s).lastPointInSegment p2) from hex),
      if_pos hex]
    simp [GenState.shiftTs]
  · rw [if_neg (show ¬exceedsLimit cfg.maxFlightTimeHours
        ((GenState.shiftTs δ s).totalElapsedTimeHours +
          stepTime cfg (GenState.shiftTs δ s).lastPointInSegment p2) from hex),
      if_neg hex]
    simp [GenState.shiftTs, Waypoint.shiftTs]
    omega

theorem outerBody_shiftTs (cfg : WindConfig) (seg : Coordinate × Coordinate)
    (δ : ℤ) (s : GenState) :
    outerBody cfg (s.shiftTs δ) seg = (outerBody cfg s seg).shiftTs δ := by
  rw [outerBody_eq, outerBody_eq, runInner_shiftTs]
  by_cases hdep : s.batteryDepleted = true
  · rw [if_pos (show (GenState.shiftTs δ s).batteryDepleted = true from hdep),
      if_pos hdep]
  · rw [if_neg (show ¬(GenState.shiftTs δ s).batteryDepleted = true from hdep),
      if_neg hdep]
    generalize runInner cfg seg.1 seg.2
      (⌊haversineDistance seg.1 seg.2 / 0.5⌋.toNat) s = s1
    by_cases hdep1 : s1.batteryDepleted = true
    · rw [if_pos (show (GenState.shiftTs δ s1).batteryDepleted = true from hdep1),
        if_pos hdep1]
    · rw [if_neg (show ¬(GenState.shiftTs δ s1).batteryDepleted = true from hdep1),
        if_neg hdep1]
      exact finalLeg_shiftTs cfg seg.2 δ s1

theorem finalState_shiftTs (t1 t2 : ℤ) (p0 : Coordinate)
    (rest : List Coordinate) (cfg : WindConfig) :
    finalState t2 p0 rest cfg = (finalState t1 p0 rest cfg).shiftTs (t2 - t1) := by
  unfold finalState
  have hstart : startState t2 p0 = (startState t1 p0).shiftTs (t2 - t1) := by
    simp [startState, GenState.shiftTs, Waypoint.shiftTs]
    omega
  rw [hstart]
  generalize (p0 :: rest).zip rest = segs
  generalize startState t1 p0 = s
  induction segs generalizing s with
  | nil => simp
  | cons seg segs ih =>
    simp only [List.foldl_cons]
    rw [outerBody_shiftTs]
    exact ih _

/-- **C4**: `generatePath` is deterministic up to the cosmetic
timestamps: two runs on identical inputs that differ only in the wall
clock produce trajectories of the same length agreeing in every
waypoint field except `timestamp`, with identical ideal coordinates,
depletion flag and final waypoint index; the clock influences neither
control flow nor numeric results. -/
theorem generatePath_deterministic (t1 t2 : ℤ) (ps : List Coordinate)
    (cw : Bool) (pws pwd : ℝ) (mm : Option ℝ) (r1 r2 : GenResult)
    (h1 : generatePath t1 ps cw pws pwd mm = some r1)
    (h2 : generatePath t2 ps cw pws pwd mm = some r2) :
    r1.waypoints.length = r2.waypoints.length ∧
      r1.waypoints.map Waypoint.toData = r2.waypoints.map Waypoint.toData ∧
      r1.idealCoords = r2.idealCoords ∧
      r1.batteryDepleted = r2.batteryDepleted ∧
      r1.finalWaypointIndex = r2.finalWaypointIndex := by
  match ps with
  | [] => simp [generatePath] at h1
  | p0 :: rest =>
    rw [generatePath_result] at h1 h2
    have h1' := Option.some.inj h1
    have h2' := Option.some.inj h2
    subst h1'
    subst h2'
    rw [generatePathAux_eq, generatePathAux_eq]
    rw [finalState_shiftTs t1 t2 p0 rest (mkCfg cw pws pwd mm)]
    refine ⟨by simp [GenState.shiftTs], ?_, by simp [GenState.shiftTs],
      by simp [GenState.shiftTs], by simp [GenState.shiftTs]⟩
    simp only [GenState.shiftTs]
    rw [List.map_map]
    rfl

/-- Witness for C4 at the concrete calls with start times 0 and 5. -/
theorem generatePath_deterministic_witness :
    (generatePathAux 0 ⟨0, 0⟩ [] false 0 0 none).waypoints.length =
        (generatePathAux 5 ⟨0, 0⟩ [] false 0 0 none).waypoints.length ∧
      (generatePathAux 0 ⟨0, 0⟩ [] false 0 0 none).waypoints.map Waypoint.toData =
        (generatePathAux 5 ⟨0, 0⟩ [] false 0 0 none).waypoints.map Waypoint.toData ∧
      (generatePathAux 0 ⟨0, 0⟩ [] false 0 0 none).idealCoords =
        (generatePathAux 5 ⟨0, 0⟩ [] false 0 0 none).idealCoords ∧
      (generatePathAux 0 ⟨0, 0⟩ [] false 0 0 none).batteryDepleted =
        (generatePathAux 5 ⟨0, 0⟩ [] false 0 0 none).batteryDepleted ∧
      (generatePathAux 0 ⟨0, 0⟩ [] false 0 0 none).finalWaypointIndex =
        (generatePathAux 5 ⟨0, 0⟩ [] false 0 0 none).finalWaypointIndex :=
  generatePath_deterministic 0 5 [⟨0, 0⟩] false 0 0 none _ _ rfl rfl

/-! ### Claim C1: a concrete battery-depleted run -/

/-- Haversine distance between two equator points `(0,0)` and `(0,d)`
for `0 < d < 180` degrees of longitude: the formula collapses to arc
length `6371 · d·π/180`. -/
theorem haversine_equator (d : ℝ) (h0 : 0 < d) (h1 : d < 180) :
    haversineDistance ⟨0, 0⟩ ⟨0, d⟩ = 6371 * (d * Real.pi / 180) := by
  have hpi := Real.pi_pos
  unfold haversineDistance toRad
  simp only [sub_zero, zero_sub, sub_self, zero_mul, zero_div, Real.sin_zero,
    Real.cos_zero, mul_zero, mul_one, zero_add]
  have hx0 : 0 < d * Real.pi / 180 / 2 := by positivity
  have hx1 : d * Real.pi / 180 / 2 < Real.pi / 2 := by
    rw [div_lt_div_iff (by norm_num : (0:ℝ) < 2) (by norm_num : (0:ℝ) < 2)]
    have : d * Real.pi < 180 * Real.pi := by nlinarith
    nlinarith
  set x := d * Real.pi / 180 / 2 with hxdef
  have hsin : 0 < Real.sin x :=
    Real.sin_pos_of_pos_of_lt_pi hx0 (by nlinarith)
  have hcos : 0 < Real.cos x :=
    Real.cos_pos_of_mem_Ioo ⟨by nlinarith, hx1⟩
  have hsq : Real.sqrt (Real.sin x * Real.sin x) = Real.sin x :=
    Real.sqrt_mul_self hsin.le
  have hone : 1 - Real.sin x * Real.sin x = Real.cos x * Real.cos x := by
    nlinarith [Real.sin_sq_add_cos_sq x]
  rw [hsq, hone, Real.sqrt_mul_self hcos.le]
  unfold atan2
  rw [if_pos hcos]
  rw [← Real.tan_eq_sin_div_cos, Real.arctan_tan (by nlinarith) hx1]
  rw [hxdef]
  ring

/-- The concrete small run behind the C1 analysis: vertices `(0,0)` and
`(0, 0.001)` (≈111 m apart, hence zero interpolation points) with a
flight-time ceiling of 0.01 minutes, which the single final leg already
exceeds.  The run depletes with only the first waypoint appended, and
`finalWaypointIndex = 0 = waypoints.length - 1`. -/
theorem smallRun_projections :
    (generatePathAux 0 ⟨0, 0⟩ [⟨0, 0.001⟩] false 0 0 (some 0.01)).batteryDepleted
        = true ∧
      (generatePathAux 0 ⟨0, 0⟩ [⟨0, 0.001⟩] false 0 0
          (some 0.01)).waypoints.length = 1 ∧
      (generatePathAux 0 ⟨0, 0⟩ [⟨0, 0.001⟩] false 0 0
          (some 0.01)).finalWaypointIndex = 0 := by
  have hpi1 : (3.14 : ℝ) < Real.pi := by
    have := Real.pi_gt_d6
    linarith
  have hpi2 : Real.pi < 3.15 := by
    have := Real.pi_lt_d2
    linarith
  have hD := haversine_equator (0.001 : ℝ) (by norm_num) (by norm_num)
  have hD1 : (0 : ℝ) < haversineDistance ⟨0, 0⟩ ⟨0, 0.001⟩ := by
    rw [hD]
    have := Real.pi_pos
    positivity
  have hD2 : haversineDistance ⟨0, 0⟩ ⟨0, (0.001 : ℝ)⟩ < 0.5 := by
    rw [hD]
    nlinarith
  have hD3 : (0.01 : ℝ) < haversineDistance ⟨0, 0⟩ ⟨0, 0.001⟩ := by
    rw [hD]
    nlinarith
  have hfloor : ⌊haversineDistance (⟨0, 0⟩ : Coordinate) ⟨0, 0.001⟩ / 0.5⌋ = 0 := by
    rw [Int.floor_eq_zero_iff]
    constructor
    · positivity
    · rw [div_lt_one (by norm_num : (0:ℝ) < 0.5)]
      exact hD2
  have hex : exceedsLimit (mkCfg false 0 0 (some 0.01)).maxFlightTimeHours
      ((startState 0 ⟨0, 0⟩).totalElapsedTimeHours +
        stepTime (mkCfg false 0 0 (some 0.01))
          (startState 0 ⟨0, 0⟩).lastPointInSegment ⟨0, 0.001⟩) := by
    show (0.01 : ℝ) / 60 <
      (startState 0 ⟨0, 0⟩).totalElapsedTimeHours +
        stepTime (mkCfg false 0 0 (some 0.01))
          (startState 0 ⟨0, 0⟩).lastPointInSegment ⟨0, 0.001⟩
    simp only [startState, stepTime, mkCfg, windAt, DRONE_SPEED_KMPH]
    norm_num
    linarith
  have hfs : finalState 0 ⟨0, 0⟩ [⟨0, 0.001⟩] (mkCfg false 0 0 (some 0.01)) =
      finalLeg (mkCfg false 0 0 (some 0.01)) ⟨0, 0.001⟩ (startState 0 ⟨0, 0⟩) := by
    unfold finalState
    show List.foldl _ _ (List.zip _ _) = _
    rw [show List.zip [(⟨0, 0⟩ : Coordinate), ⟨0, 0.001⟩] [⟨0, 0.001⟩] =
      [((⟨0, 0⟩ : Coordinate), (⟨0, 0.001⟩ : Coordinate))] from rfl]
    rw [List.foldl_cons, List.foldl_nil, outerBody_eq]
    rw [if_neg (show ¬(startState 0 ⟨0, 0⟩).batteryDepleted = true by
      simp [startState])]
    have hext : (⌊haversineDistance
        ((⟨0, 0⟩ : Coordinate), (⟨0, 0.001⟩ : Coordinate)).1
        ((⟨0, 0⟩ : Coordinate), (⟨0, 0.001⟩ : Coordinate)).2 / 0.5⌋).toNat = 0 := by
      show (⌊haversineDistance (⟨0, 0⟩ : Coordinate) ⟨0, 0.001⟩ / 0.5⌋).toNat = 0
      rw [hfloor]
      rfl
    rw [hext]
    rw [show runInner (mkCfg false 0 0 (some 0.01)) (⟨0, 0⟩ : Coordinate)
      (⟨0, 0.001⟩ : Coordinate) 0 (startState 0 ⟨0, 0⟩) = startState 0 ⟨0, 0⟩
      from rfl]
    rw [if_neg (show ¬(startState 0 ⟨0, 0⟩).batteryDepleted = true by
      simp [startState])]
  refine ⟨?_, ?_, ?_⟩
  · rw [generatePathAux_eq]
    show (finalState 0 ⟨0, 0⟩ [⟨0, 0.001⟩]
      (mkCfg false 0 0 (some 0.01))).batteryDepleted = true
    rw [hfs]
    unfold finalLeg
    rw [if_pos hex]
  · rw [generatePathAux_eq]
    show (finalState 0 ⟨0, 0⟩ [⟨0, 0.001⟩]
      (mkCfg false 0 0 (some 0.01))).waypoints.length = 1
    rw [hfs]
    unfold finalLeg
    rw [if_pos hex]
    rfl
  · rw [generatePathAux_eq]
    have hdep : (finalState 0 ⟨0, 0⟩ [⟨0, 0.001⟩]
        (mkCfg false 0 0 (some 0.01))).batteryDepleted = true := by
      rw [hfs]
      unfold finalLeg
      rw [if_pos hex]
    show (if (finalState 0 ⟨0, 0⟩ [⟨0, 0.001⟩]
        (mkCfg false 0 0 (some 0.01))).batteryDepleted then
        (finalState 0 ⟨0, 0⟩ [⟨0, 0.001⟩]
          (mkCfg false 0 0 (some 0.01))).finalWaypointIndex
      else (finalState 0 ⟨0, 0⟩ [⟨0, 0.001⟩]
        (mkCfg false 0 0 (some 0.01))).waypoints.length - 1) = 0
    rw [hdep]
    simp only [if_true]
    rw [hfs]
    unfold finalLeg
    rw [if_pos hex]
    rfl

/-- **C1 (counterexample)**: on vertices `(0,0)`, `(0, 0.001)` with
`maxFlightTimeMinutes = 0.01` — a ceiling exceeded before the second
vertex is ever appended — `generatePath` reports `batteryDepleted =
true` with exactly one waypoint, but `finalWaypointIndex = 0 =
waypoints.length - 1`, so the claimed strict inequality
`finalWaypointIndex < waypoints.length - 1` is false. -/
theorem generatePath_battery_counterexample :
    (generatePathAux 0 ⟨0, 0⟩ [⟨0, 0.001⟩] false 0 0 (some 0.01)).batteryDepleted
        = true ∧
      ¬((generatePathAux 0 ⟨0, 0⟩ [⟨0, 0.001⟩] false 0 0
            (some 0.01)).finalWaypointIndex <
          (generatePathAux 0 ⟨0, 0⟩ [⟨0, 0.001⟩] false 0 0
            (some 0.01)).waypoints.length - 1) := by
  obtain ⟨h1, h2, h3⟩ := smallRun_projections
  refine ⟨h1, ?_⟩
  rw [h2, h3]
  omega

/-- Witness for the amended C1 at the concrete depleted run. -/
theorem generatePath_depleted_finalIndex_witness :
    (generatePath 0 [⟨0, 0⟩, ⟨0, 0.001⟩] false 0 0 (some 0.01) =
        some (generatePathAux 0 ⟨0, 0⟩ [⟨0, 0.001⟩] false 0 0 (some 0.01))) ∧
      (generatePathAux 0 ⟨0, 0⟩ [⟨0, 0.001⟩] false 0 0
          (some 0.01)).batteryDepleted = true ∧
      (generatePathAux 0 ⟨0, 0⟩ [⟨0, 0.001⟩] false 0 0
          (some 0.01)).finalWaypointIndex =
        (generatePathAux 0 ⟨0, 0⟩ [⟨0, 0.001⟩] false 0 0
          (some 0.01)).waypoints.length - 1 :=
  ⟨rfl, smallRun_projections.1,
    generatePath_depleted_finalIndex 0 [⟨0, 0⟩, ⟨0, 0.001⟩] false 0 0 (some 0.01)
      _ rfl smallRun_projections.1⟩

/-! ### Specification-side definitions (written from the spec's words,
for the refinement claims about `calculateMissionSummary`) -/

noncomputable section

/-- Spec wording: "sum of haversine distance between each consecutive
pair", written as direct recursion over the list. -/
def consecSum {α : Type} (f : α → α → ℝ) : List α → ℝ
  | a :: b :: t => f a b + consecSum f (b :: t)
  | _ => 0

/-- Spec wording: maximum over a nonempty collection `x :: l`. -/
def foldMax (x : ℝ) (l : List ℝ) : ℝ := l.foldl max x

/-- Spec wording: minimum over a nonempty collection `x :: l`. -/
def foldMin (x : ℝ) (l : List ℝ) : ℝ := l.foldl min x

end

/-! ### Claim C5: the mission summary refines its specification -/

theorem summaryFold_dist (l : List (Waypoint × Waypoint)) :
    ∀ a : SummaryAcc, (l.foldl summaryStep a).dist =
      l.foldl (fun d pq => d + haversineDistance pq.1.toCoordinate pq.2.toCoordinate)
        a.dist := by
  induction l with
  | nil => intro a; rfl
  | cons pq l ih => intro a; simp only [List.foldl_cons, ih, summaryStep]

theorem summaryFold_maxT (l : List (Waypoint × Waypoint)) :
    ∀ a : SummaryAcc, (l.foldl summaryStep a).maxT =
      l.foldl (fun m pq => max m (pq.2.temperature : EReal)) a.maxT := by
  induction l with
  | nil => intro a; rfl
  | cons pq l ih => intro a; simp only [List.foldl_cons, ih, summaryStep]

theorem summaryFold_minT (l : List (Waypoint × Waypoint)) :
    ∀ a : SummaryAcc, (l.foldl summaryStep a).minT =
      l.foldl (fun m pq => min m (pq.2.temperature : EReal)) a.minT := by
  induction l with
  | nil => intro a; rfl
  | cons pq l ih => intro a; simp only [List.foldl_cons, ih, summaryStep]

theorem summaryFold_maxW (l : List (Waypoint × Waypoint)) :
    ∀ a : SummaryAcc, (l.foldl summaryStep a).maxW =
      l.foldl (fun m pq => max m (pq.2.windSpeed : EReal)) a.maxW := by
  induction l with
  | nil => intro a; rfl
  | cons pq l ih => intro a; simp only [List.foldl_cons, ih, summaryStep]

theorem summaryFold_minW (l : List (Waypoint × Waypoint)) :
    ∀ a : SummaryAcc, (l.foldl summaryStep a).minW =
      l.foldl (fun m pq => min m (pq.2.windSpeed : EReal)) a.minW := by
  induction l with
  | nil => intro a; rfl
  | cons pq l ih => intro a; simp only [List.foldl_cons, ih, summaryStep]

/-- The consecutive-pair distance scan computes `consecSum`. -/
theorem foldl_zip_consecSum {α : Type} (f : α → α → ℝ) :
    ∀ (l : List α) (x : ℝ),
      (l.zip l.tail).foldl (fun d pq => d + f pq.1 pq.2) x = x + consecSum f l := by
  intro l
  induction l with
  | nil => intro x; simp [consecSum]
  | cons a l ih =>
    intro x
    match l with
    | [] => simp [consecSum]
    | b :: t =>
      simp only [List.zip_cons_cons, List.tail_cons, List.foldl_cons] at ih ⊢
      rw [ih (x + f a b)]
      show x + f a b + consecSum f (b :: t) = x + (f a b + consecSum f (b :: t))
      ring

/-- A scan over the second components of `l.zip l.tail` is a scan over
`l.tail`. -/
theorem foldl_zip_snd {α β : Type} (f : β → α → β) (l : List α) (x : β) :
    (l.zip l.tail).foldl (fun m pq => f m pq.2) x = l.tail.foldl f x := by
  have hm : (l.zip l.tail).map Prod.snd = l.tail :=
    List.map_snd_zip l l.tail (by cases l <;> simp)
  calc (l.zip l.tail).foldl (fun m pq => f m pq.2) x
      = ((l.zip l.tail).map Prod.snd).foldl f x := (List.foldl_map _ _ _ _).symm
    _ = l.tail.foldl f x := by rw [hm]

theorem foldl_max_coe (l : List ℝ) :
    ∀ x : ℝ, l.foldl (fun (m : EReal) (w : ℝ) => max m (w : EReal)) (x : EReal) =
      ((l.foldl max x : ℝ) : EReal) := by
  induction l with
  | nil => intro x; rfl
  | cons a l ih =>
    intro x
    simp only [List.foldl_cons, ← EReal.coe_strictMono.monotone.map_max, ih]

theorem foldl_min_coe (l : List ℝ) :
    ∀ x : ℝ, l.foldl (fun (m : EReal) (w : ℝ) => min m (w : EReal)) (x : EReal) =
      ((l.foldl min x : ℝ) : EReal) := by
  induction l with
  | nil => intro x; rfl
  | cons a l ih =>
    intro x
    simp only [List.foldl_cons, ← EReal.coe_strictMono.monotone.map_min, ih]

theorem foldl_max_out (l : List ℝ) :
    ∀ x y : ℝ, max (l.foldl max x) y = l.foldl max (max x y) := by
  induction l with
  | nil => intro x y; rfl
  | cons a l ih =>
    intro x y
    simp only [List.foldl_cons, ih]
    congr 1
    exact sup_right_comm x a y

theorem foldl_min_out (l : List ℝ) :
    ∀ x y : ℝ, min (l.foldl min x) y = l.foldl min (min x y) := by
  induction l with
  | nil => intro x y; rfl
  | cons a l ih =>
    intro x y
    simp only [List.foldl_cons, ih]
    congr 1
    exact inf_right_comm x a y

/-- The `EReal` extrema scan of the summary, seeded at `⊥`, folded with
the first waypoint's reading and converted to a real number, is the
plain real maximum over all readings. -/
theorem summary_max_eval (t0 : ℝ) (l : List ℝ) :
    (max (l.foldl (fun (m : EReal) (w : ℝ) => max m (w : EReal)) ⊥)
        (t0 : EReal)).toReal = foldMax t0 l := by
  match l with
  | [] =>
    show (max (⊥ : EReal) (t0 : EReal)).toReal = t0
    rw [max_eq_right bot_le, EReal.toReal_coe]
  | a :: l =>
    show (max ((a :: l).foldl (fun (m : EReal) (w : ℝ) => max m (w : EReal)) ⊥)
      (t0 : EReal)).toReal = _
    rw [List.foldl_cons, max_eq_right (bot_le : (⊥ : EReal) ≤ (a : EReal)),
      foldl_max_coe, ← EReal.coe_strictMono.monotone.map_max, EReal.toReal_coe,
      foldl_max_out]
    show l.foldl max (max a t0) = (a :: l).foldl max t0
    rw [List.foldl_cons, max_comm a t0]

theorem summary_min_eval (t0 : ℝ) (l : List ℝ) :
    (min (l.foldl (fun (m : EReal) (w : ℝ) => min m (w : EReal)) ⊤)
        (t0 : EReal)).toReal = foldMin t0 l := by
  match l with
  | [] =>
    show (min (⊤ : EReal) (t0 : EReal)).toReal = t0
    rw [min_eq_right le_top, EReal.toReal_coe]
  | a :: l =>
    show (min ((a :: l).foldl (fun (m : EReal) (w : ℝ) => min m (w : EReal)) ⊤)
      (t0 : EReal)).toReal = _
    rw [List.foldl_cons, min_eq_right (le_top : (a : EReal) ≤ ⊤),
      foldl_min_coe, ← EReal.coe_strictMono.monotone.map_min, EReal.toReal_coe,
      foldl_min_out]
    show l.foldl min (min a t0) = (a :: l).foldl min t0
    rw [List.foldl_cons, min_comm a t0]

/-- **C5**: on a waypoint list of length ≥ 2 and any ideal-coordinate
list, `calculateMissionSummary` returns the consecutive-pair haversine
sums for the realistic and ideal distances, the last waypoint's elapsed
time as total flight time, and the temperature/wind extrema over all
waypoints including the first. -/
theorem calculateMissionSummary_spec (w0 w1 : Waypoint) (ws : List Waypoint)
    (idealCoords : List Coordinate) :
    calculateMissionSummary (w0 :: w1 :: ws) idealCoords =
      { totalIdealDistance := consecSum haversineDistance idealCoords,
        totalRealisticDistance :=
          consecSum (fun a b => haversineDistance a.toCoordinate b.toCoordinate)
            (w0 :: w1 :: ws),
        totalFlightTimeHours :=
          ((w0 :: w1 :: ws).getLast (List.cons_ne_nil _ _)).elapsedTimeHours,
        maxTemperature :=
          foldMax w0.temperature ((w1 :: ws).map Waypoint.temperature),
        minTemperature :=
          foldMin w0.temperature ((w1 :: ws).map Waypoint.temperature),
        maxWindSpeed := foldMax w0.windSpeed ((w1 :: ws).map Waypoint.windSpeed),
        minWindSpeed := foldMin w0.windSpeed ((w1 :: ws).map Waypoint.windSpeed) } := by
  simp only [calculateMissionSummary]
  congr 1
  · rw [foldl_zip_consecSum haversineDistance idealCoords 0, zero_add]
  · rw [summaryFold_dist, foldl_zip_consecSum
      (fun a b => haversineDistance a.toCoordinate b.toCoordinate) (w0 :: w1 :: ws) 0]
    exact zero_add _
  · rw [summaryFold_maxT,
      foldl_zip_snd (fun m w => max m (w.temperature : EReal)) (w0 :: w1 :: ws) ⊥]
    show (max ((w1 :: ws).foldl (fun m w => max m (w.temperature : EReal)) ⊥)
      (w0.temperature : EReal)).toReal = _
    rw [← List.foldl_map Waypoint.temperature
      (fun (m : EReal) (w : ℝ) => max m (w : EReal)) (w1 :: ws) ⊥]
    exact summary_max_eval w0.temperature ((w1 :: ws).map Waypoint.temperature)
  · rw [summaryFold_minT,
      foldl_zip_snd (fun m w => min m (w.temperature : EReal)) (w0 :: w1 :: ws) ⊤]
    show (min ((w1 :: ws).foldl (fun m w => min m (w.temperature : EReal)) ⊤)
      (w0.temperature : EReal)).toReal = _
    rw [← List.foldl_map Waypoint.temperature
      (fun (m : EReal) (w : ℝ) => min m (w : EReal)) (w1 :: ws) ⊤]
    exact summary_min_eval w0.temperature ((w1 :: ws).map Waypoint.temperature)
  · rw [summaryFold_maxW,
      foldl_zip_snd (fun m w => max m (w.windSpeed : EReal)) (w0 :: w1 :: ws) ⊥]
    show (max ((w1 :: ws).foldl (fun m w => max m (w.windSpeed : EReal)) ⊥)
      (w0.windSpeed : EReal)).toReal = _
    rw [← List.foldl_map Waypoint.windSpeed
      (fun (m : EReal) (w : ℝ) => max m (w : EReal)) (w1 :: ws) ⊥]
    exact summary_max_eval w0.windSpeed ((w1 :: ws).map Waypoint.windSpeed)
  · rw [summaryFold_minW,
      foldl_zip_snd (fun m w => min m (w.windSpeed : EReal)) (w0 :: w1 :: ws) ⊤]
    show (min ((w1 :: ws).foldl (fun m w => min m (w.windSpeed : EReal)) ⊤)
      (w0.windSpeed : EReal)).toReal = _
    rw [← List.foldl_map Waypoint.windSpeed
      (fun (m : EReal) (w : ℝ) => min m (w : EReal)) (w1 :: ws) ⊤]
    exact summary_min_eval w0.windSpeed ((w1 :: ws).map Waypoint.windSpeed)

/-! ### Interpolation boundary (C2) -/

/-- **C2**: `interpolatePoint(a, b, 0)` equals `a` exactly and
`interpolatePoint(a, b, 1)` equals `b` exactly, in both fields. -/
theorem interpolatePoint_boundary (a b : Coordinate) :
    interpolatePoint a b 0 = a ∧ interpolatePoint a b 1 = b := by
  constructor <;> · ext <;> simp [interpolatePoint]

/-! ### Degenerate summary (C9) -/

/-- **C9**: on fewer than 2 waypoints, `calculateMissionSummary` returns
the record with every field equal to 0 (and in particular does not fail). -/
theorem calculateMissionSummary_degenerate
    (waypoints : List Waypoint) (idealCoords : List Coordinate)
    (h : waypoints.length < 2) :
    calculateMissionSummary waypoints idealCoords =
      { totalIdealDistance := 0, totalRealisticDistance := 0,
        totalFlightTimeHours := 0, maxTemperature := 0, minTemperature := 0,
        maxWindSpeed := 0, minWindSpeed := 0 } := by
  match waypoints with
  | [] => rfl
  | [w] => rfl
  | w0 :: w1 :: rest => simp at h; omega

/-- Witness for C9: a concrete single-waypoint list with an empty
ideal-coordinate list satisfies the hypothesis and the conclusion. -/
theorem calculateMissionSummary_degenerate_witness :
    ([(⟨0, 0, 0, WaypointType.initial, 0, 0, 0, 0, 0⟩ : Waypoint)].length < 2) ∧
      calculateMissionSummary [⟨0, 0, 0, WaypointType.initial, 0, 0, 0, 0, 0⟩] [] =
        { totalIdealDistance := 0, totalRealisticDistance := 0,
          totalFlightTimeHours := 0, maxTemperature := 0, minTemperature := 0,
          maxWindSpeed := 0, minWindSpeed := 0 } :=
  ⟨by simp, calculateMissionSummary_degenerate _ _ (by simp)⟩

end MapTracing
